import Mathlib

/-!
Verification of the block-server core of `flexgen_model_in_petals`.

Shallow embedding of:
- `src/petals/server/backend.py` — `TransformerBackend.inference_step`,
  `_estimate_max_chunk_length`, `_reorder_cache_inplace`,
  `_update_cache_inplace`, and `_MergedInferenceStep.__call__`;
- `src/petals/flexgen_utils/policy.py` — `Policy` and its derived
  disk-percentage accessors.

Modelling conventions:
- A hidden-states tensor of shape (batch, seq, hidden) is `List (List (List Int))`
  (batch-major); a 2-D tensor (seq, hidden) is `List (List Int)`.
- One attention-cache tensor is modelled along the axis the code slices:
  the length axis for `_update_cache_inplace` (element = everything in the
  other axes, folded to `Int`, indexed by `Nat → Int`), the batch axis for
  `_reorder_cache_inplace` (a list of rows).
- Python floats in `Policy` are modelled by their exact rational values
  (every finite IEEE-754 binary64 value is a dyadic rational), and every
  arithmetic operation on them is rounded back to 53 significant bits by
  `fround` (round to nearest, ties to even); machine ints become `Nat`/`Int`.
- `self.module.forward(chunk, use_cache=True)[0]` — the transformer block
  itself — is external to the embedded files, so it appears as an explicit
  function parameter `f : T3 → T3`.
-/

/-- A hidden vector (the last tensor axis). -/
abbrev Vec := List Int

/-- One batch row: a sequence of hidden vectors, axis 1 of a 3-D tensor. -/
abbrev Row := List Vec

/-- A 3-D hidden-states tensor (batch, seq, hidden), batch-major. -/
abbrev T3 := List Row

/-- Modelled from the spec (§3): `petals.data_structures.InferenceMetadata` is
not under `src/`; the fields the embedded code uses are the block `uid`
(merged-executor dispatch) and `prefix_length` (already-cached token count). -/
structure InferenceMetadata where
  uid : Nat
  prefix_length : Nat
deriving DecidableEq, Repr

/-- The hardcoded chunk size of `inference_step` (backend.py line 133):
`chunk_size = 512  # Adjust based on available memory`. -/
def chunk_size : Nat := 512

/-- `hidden_states.size(1)`: the length of the sequence axis of a 3-D tensor
(all batch rows of a well-formed tensor have the same length; we read the
first row, matching how the single shape field of a torch tensor behaves). -/
def seqLen (x : T3) : Nat := (x.headD []).length

/-- `n_chunks = (hidden_states.size(1) + chunk_size - 1) // chunk_size`
(backend.py line 134). -/
def n_chunks (L : Nat) : Nat := (L + chunk_size - 1) / chunk_size

/-- `hidden_states[:, start_idx:end_idx, :]` (backend.py line 140):
slicing along axis 1 of a 3-D tensor. -/
def slice1 (x : T3) (start_idx end_idx : Nat) : T3 :=
  x.map (fun r => (r.drop start_idx).take (end_idx - start_idx))

/-- `torch.cat(output_chunks, dim=1)` (backend.py line 150): concatenation of
equally-batched 3-D tensors along the sequence axis. -/
def cat1 : List T3 → T3
  | [] => []
  | c :: [] => c
  | c :: c2 :: cs => List.zipWith (fun a b => a ++ b) c (cat1 (c2 :: cs))

/-- The chunk loop of `inference_step` (backend.py lines 132-150) on an
already-3-D tensor: split axis 1 into `n_chunks` pieces of `chunk_size`
(the last piece clipped to the sequence length), apply the block function
`f` (i.e. `self.module.forward(chunk, use_cache=True)[0]`) to each chunk in
order, and concatenate the outputs along axis 1. -/
def inference_step_chunks (f : T3 → T3) (x : T3) : T3 :=
  let L := seqLen x
  cat1 ((List.range (n_chunks L)).map
    (fun i => f (slice1 x (i * chunk_size) (min ((i + 1) * chunk_size) L))))

/-- The dynamically-shaped `hidden_states` argument of `inference_step`:
either a 2-D tensor (seq, hidden) or a 3-D tensor (batch, seq, hidden). -/
inductive HiddenStates where
  | dim2 : Row → HiddenStates
  | dim3 : T3 → HiddenStates

/-- `if hidden_states.ndim == 2: hidden_states = hidden_states.unsqueeze(0)`
(backend.py lines 129-130). -/
def ensure3d : HiddenStates → T3
  | .dim2 m => [m]
  | .dim3 t => t

/-- `TransformerBackend.inference_step` (backend.py lines 117-153): promote a
2-D input to 3-D, then run the fixed-size chunk loop. The parameters
`hypo_ids` and `inference_info` are accepted, as in the source signature,
but the body never reads them and never touches any attention-cache state. -/
def inference_step (f : T3 → T3) (hidden_states : HiddenStates)
    (hypo_ids : List Nat) (inference_info : InferenceMetadata) : T3 :=
  inference_step_chunks f (ensure3d hidden_states)

/-- `TransformerBackend._estimate_max_chunk_length` (backend.py lines 155-161):
`max(1, max_chunk_size_bytes // (max(shard_num_heads) * batch_size *
dtype_bytes * (prefix_length + seq_length)))`. Defined in the source but
never called by `inference_step`. -/
def estimate_max_chunk_length (max_chunk_size_bytes : Nat)
    (shard_num_heads : List Nat) (dtype_bytes : Nat)
    (batch_size seq_length prefix_length : Nat) : Nat :=
  let worst_case_length := prefix_length + seq_length
  let attn_bytes_per_token :=
    (shard_num_heads.foldr max 0) * batch_size * dtype_bytes * worst_case_length
  max 1 (max_chunk_size_bytes / attn_bytes_per_token)

/-- Modelled from the spec (§4.3): `petals.utils.misc.is_dummy` is not under
`src/`; the spec calls its argument "a sentinel identity marker", modelled as
the empty index list (the dummy tensor `torch.empty(0)`). -/
def is_dummy (hypo_ids : List Nat) : Bool := hypo_ids.isEmpty

/-- `TransformerBackend._reorder_cache_inplace` (backend.py lines 163-167):
when `hypo_ids` is not the dummy sentinel, each cache tensor is replaced by
`cache_tensor[hypo_ids]` — row `i` of the result is row `hypo_ids[i]` of the
original (torch advanced indexing gathers from a copy of the original before
the in-place write-back). Each cache tensor is modelled along its leading
batch axis as a list of rows. -/
def reorder_cache_inplace (cache_tensors : List (List Vec)) (hypo_ids : List Nat) :
    List (List Vec) :=
  if is_dummy hypo_ids then cache_tensors
  else cache_tensors.map (fun t => hypo_ids.map (fun ix => t.getD ix []))

/-- The slice assignment `dst[..., prefix_length:new_length] =
src[..., prefix_length:new_length]` along the cache-length axis, with all
other axes of the tensor folded into the element. Keys (even positions,
length on axis 3) and values (odd positions, length on axis 2) both perform
exactly this assignment on their length axis. -/
def slice_assign (cache newT : Nat → Int) (prefix_length new_length : Nat) :
    Nat → Int :=
  fun i => if prefix_length ≤ i ∧ i < new_length then newT i else cache i

/-- `TransformerBackend._update_cache_inplace` (backend.py lines 180-190):
each cache tensor receives the matching new key/value tensor on the index
range `[prefix_length, new_length)` of its length axis and keeps its old
contents elsewhere. -/
def update_cache_inplace (cache_tensors new_kvs : List (Nat → Int))
    (prefix_length new_length : Nat) : List (Nat → Int) :=
  List.zipWith (fun c k => slice_assign c k prefix_length new_length)
    cache_tensors new_kvs

/-- `hidden_states[:, : optional_prompt.shape[1]] += optional_prompt`
(backend.py line 244): add the prompt elementwise into the leading
prompt-length positions of each batch row, leaving later positions alone. -/
def addPrompt (hidden_states optional_prompt : T3) : T3 :=
  List.zipWith
    (fun hr pr =>
      List.zipWith (fun a b => List.zipWith (fun x y => x + y) a b)
        (hr.take pr.length) pr ++ hr.drop pr.length)
    hidden_states optional_prompt

/-- The error raised by the merged step's arity assertion
(`assert len(inference_infos) == len(optional_prompts)`, backend.py 238-240). -/
inductive MergedStepError where
  | arityMismatch
deriving DecidableEq, Repr

/-- The `for inference_info, optional_prompt in zip(...)` loop of
`_MergedInferenceStep.__call__` (backend.py lines 242-246): optionally add the
prompt, run the block's `inference_step`, and carry the result into the next
iteration. `blocks` maps a block uid to its module function
(`self.backends[inference_info.uid]`). -/
def merged_loop (blocks : Nat → T3 → T3) (hypo_ids : List Nat) :
    List (InferenceMetadata × Option T3) → T3 → T3
  | [], hidden_states => hidden_states
  | (inference_info, optional_prompt) :: rest, hidden_states =>
    let h1 := match optional_prompt with
      | some p => addPrompt hidden_states p
      | none => hidden_states
    merged_loop blocks hypo_ids rest
      (inference_step (blocks inference_info.uid) (.dim3 h1) hypo_ids inference_info)

/-- `_MergedInferenceStep.__call__` (backend.py lines 230-248): check the
metadata/prompt arity, then fold the per-block steps left to right and return
the single final `hidden_states` tensor. -/
def merged_inference_step (blocks : Nat → T3 → T3) (hidden_states : T3)
    (hypo_ids : List Nat) (inference_infos : List InferenceMetadata)
    (optional_prompts : List (Option T3)) : Except MergedStepError T3 :=
  if inference_infos.length = optional_prompts.length then
    .ok (merged_loop blocks hypo_ids (inference_infos.zip optional_prompts) hidden_states)
  else
    .error .arityMismatch

/-- Placeholder for `petals.flexgen_utils.compression.CompressionConfig` (not
under `src/`); `Policy` only carries it, never inspects it. -/
structure CompressionConfig where
deriving DecidableEq

/-- Round a rational to the nearest integer, ties to even (the rounding of
IEEE-754 round-to-nearest-even at integer granularity). -/
def rne (q : ℚ) : ℤ :=
  if q - ⌊q⌋ < 1/2 then ⌊q⌋
  else if (1 : ℚ)/2 < q - ⌊q⌋ then ⌊q⌋ + 1
  else if ⌊q⌋ % 2 = 0 then ⌊q⌋ else ⌊q⌋ + 1

/-- Round a rational to the nearest IEEE-754 binary64 value (53 significant
bits, round to nearest, ties to even), at the value level: the significand is
scaled into `[2^52, 2^53)` using the base-2 logarithm, rounded with `rne`,
and scaled back. Overflow and subnormal ranges are not reached by any value
involved here. -/
def fround (q : ℚ) : ℚ :=
  if q = 0 then 0
  else if 0 < q then (rne (q / 2 ^ (Int.log 2 q - 52)) : ℚ) * 2 ^ (Int.log 2 q - 52)
  else -((rne (-q / 2 ^ (Int.log 2 (-q) - 52)) : ℚ) * 2 ^ (Int.log 2 (-q) - 52))

/-- Python float addition: exact sum, rounded to binary64. -/
def fadd (a b : ℚ) : ℚ := fround (a + b)

/-- Python float subtraction: exact difference, rounded to binary64. -/
def fsub (a b : ℚ) : ℚ := fround (a - b)

/-- `Policy` (policy.py lines 3-37): the frozen placement-policy record.
The percentage fields are Python floats; each field holds the exact rational
value of the stored binary64 number, and all arithmetic on them goes through
`fadd`/`fsub`. -/
structure Policy where
  gpu_batch_size : Int
  num_gpu_batches : Int
  w_gpu_percent : ℚ
  w_cpu_percent : ℚ
  cache_gpu_percent : ℚ
  cache_cpu_percent : ℚ
  act_gpu_percent : ℚ
  act_cpu_percent : ℚ
  overlap : Bool
  sep_layer : Bool
  pin_weight : Bool
  cpu_cache_compute : Bool
  attn_sparsity : ℚ
  compress_weight : Bool
  comp_weight_config : CompressionConfig
  compress_cache : Bool
  comp_cache_config : CompressionConfig

/-- `Policy.w_disk_percent` (policy.py lines 39-41):
`100 - self.w_gpu_percent - self.w_cpu_percent`, two left-associated float
subtractions, each rounded. -/
def Policy.w_disk_percent (p : Policy) : ℚ :=
  fsub (fsub 100 p.w_gpu_percent) p.w_cpu_percent

/-- `Policy.cache_disk_percent` (policy.py lines 43-45). -/
def Policy.cache_disk_percent (p : Policy) : ℚ :=
  fsub (fsub 100 p.cache_gpu_percent) p.cache_cpu_percent

/-- `Policy.act_disk_percent` (policy.py lines 47-49). -/
def Policy.act_disk_percent (p : Policy) : ℚ :=
  fsub (fsub 100 p.act_gpu_percent) p.act_cpu_percent

/-- The spec's validity invariant on a `Policy` (§3): each percentage is
within `[0, 100]` and each gpu/cpu pair sums to at most 100. -/
def Policy.valid (p : Policy) : Prop :=
  0 ≤ p.w_gpu_percent ∧ p.w_gpu_percent ≤ 100 ∧
  0 ≤ p.w_cpu_percent ∧ p.w_cpu_percent ≤ 100 ∧
  0 ≤ p.cache_gpu_percent ∧ p.cache_gpu_percent ≤ 100 ∧
  0 ≤ p.cache_cpu_percent ∧ p.cache_cpu_percent ≤ 100 ∧
  0 ≤ p.act_gpu_percent ∧ p.act_gpu_percent ≤ 100 ∧
  0 ≤ p.act_cpu_percent ∧ p.act_cpu_percent ≤ 100 ∧
  p.w_gpu_percent + p.w_cpu_percent ≤ 100 ∧
  p.cache_gpu_percent + p.cache_cpu_percent ≤ 100 ∧
  p.act_gpu_percent + p.act_cpu_percent ≤ 100

instance (p : Policy) : Decidable p.valid := by
  unfold Policy.valid
  infer_instance

/-- A valid policy whose weight percentages are the doubles
`23.86159286152202` and `73.66697349945584` — exactly
`3358220647488033 / 2^47` and `5183852412525961 / 2^46`. -/
def floatPolicyExample : Policy :=
  Policy.mk 1 1 (3358220647488033 / 140737488355328) (5183852412525961 / 70368744177664)
    50 50 0 100 false false false false 0 false ⟨⟩ false ⟨⟩

/-- A valid policy with whole-number percentages (the spec's 50/50 cache
split scenario). -/
def intPolicyExample : Policy :=
  Policy.mk 1 1 100 0 50 50 0 100 false false false false 0 false ⟨⟩ false ⟨⟩

lemma rne_intCast (m : ℤ) : rne (m : ℚ) = m := by
  unfold rne
  rw [Int.floor_intCast]
  norm_num

lemma int_log_eq_of (q : ℚ) (L : ℤ) (hq : 0 < q) (h1 : 2 ^ L ≤ q) (h2 : q < 2 ^ (L + 1)) :
    Int.log 2 q = L := by
  have hle : L ≤ Int.log 2 q := (Int.zpow_le_iff_le_log (by norm_num) hq).mp h1
  have hlt : Int.log 2 q < L + 1 := (Int.lt_zpow_iff_log_lt (by norm_num) hq).mp h2
  omega

lemma fround_pos_eq (q : ℚ) (L : ℤ) (hq : 0 < q) (h1 : 2 ^ L ≤ q) (h2 : q < 2 ^ (L + 1)) :
    fround q = (rne (q / 2 ^ (L - 52)) : ℚ) * 2 ^ (L - 52) := by
  unfold fround
  rw [if_neg (by positivity), if_pos hq, int_log_eq_of q L hq h1 h2]

lemma fround_natCast (n : ℕ) (hn : n ≤ 2 ^ 52) : fround (n : ℚ) = n := by
  rcases Nat.eq_zero_or_pos n with h0 | hpos
  · subst h0; simp [fround]
  have hq : (0 : ℚ) < n := by exact_mod_cast hpos
  have hq1 : (1 : ℚ) ≤ n := by exact_mod_cast hpos
  have hL0 : 0 ≤ Int.log 2 (n : ℚ) := by
    have h0 : (2 : ℚ) ^ (0 : ℤ) ≤ (n : ℚ) := by rw [zpow_zero]; exact hq1
    exact (Int.zpow_le_iff_le_log (by norm_num) hq).mp h0
  have hLle : Int.log 2 (n : ℚ) ≤ 52 := by
    have hcast52 : (n : ℚ) ≤ 4503599627370496 := by exact_mod_cast hn
    have h53 : (n : ℚ) < 2 ^ (53 : ℤ) := lt_of_le_of_lt hcast52 (by norm_num)
    have h54 : Int.log 2 (n : ℚ) < 53 := (Int.lt_zpow_iff_log_lt (by norm_num) hq).mp h53
    omega
  have hsplit : (n : ℚ) / 2 ^ (Int.log 2 (n : ℚ) - 52) =
      (n : ℚ) * 2 ^ ((52 : ℤ) - Int.log 2 (n : ℚ)) := by
    rw [div_eq_mul_inv, ← zpow_neg, neg_sub]
  have hcast : (n : ℚ) * 2 ^ ((52 : ℤ) - Int.log 2 (n : ℚ)) =
      ((n * 2 ^ (52 - Int.log 2 (n : ℚ)).toNat : ℤ) : ℚ) := by
    push_cast
    rw [← zpow_natCast (2 : ℚ) (52 - Int.log 2 (n : ℚ)).toNat, Int.toNat_of_nonneg (by omega)]
  have hfr : fround (n : ℚ) =
      (rne ((n : ℚ) / 2 ^ (Int.log 2 (n : ℚ) - 52)) : ℚ) * 2 ^ (Int.log 2 (n : ℚ) - 52) := by
    unfold fround
    rw [if_neg (by positivity), if_pos hq]
  rw [hfr, hsplit, hcast, rne_intCast]
  push_cast
  rw [← zpow_natCast (2 : ℚ) (52 - Int.log 2 (n : ℚ)).toNat, Int.toNat_of_nonneg (by omega),
    mul_assoc, ← zpow_add₀ (by norm_num : (2 : ℚ) ≠ 0)]
  simp

lemma float_sum_100 (a b : ℕ) (hab : a + b ≤ 100) :
    fadd (fadd (a : ℚ) (b : ℚ)) (fsub (fsub 100 (a : ℚ)) (b : ℚ)) = 100 := by
  have ha : a ≤ 100 := by omega
  have hb : b ≤ 100 - a := by omega
  have hbound : ∀ m : ℕ, m ≤ 100 → m ≤ 2 ^ 52 := fun m hm => le_trans hm (by norm_num)
  unfold fadd fsub
  have e1 : (100 : ℚ) - (a : ℚ) = ((100 - a : ℕ) : ℚ) := by
    push_cast [Nat.cast_sub ha]; ring
  rw [e1, fround_natCast (100 - a) (hbound _ (by omega))]
  have e2 : ((100 - a : ℕ) : ℚ) - (b : ℚ) = ((100 - a - b : ℕ) : ℚ) := by
    push_cast [Nat.cast_sub ha, Nat.cast_sub hb]; ring
  rw [e2, fround_natCast (100 - a - b) (hbound _ (by omega))]
  have e3 : (a : ℚ) + (b : ℚ) = ((a + b : ℕ) : ℚ) := by push_cast; ring
  rw [e3, fround_natCast (a + b) (hbound _ (by omega))]
  have e4 : ((a + b : ℕ) : ℚ) + ((100 - a - b : ℕ) : ℚ) = ((100 : ℕ) : ℚ) := by
    rw [← Nat.cast_add]
    congr 1
    omega
  rw [e4, fround_natCast 100 (hbound _ le_rfl)]
  norm_num

/-- Claim C6 counterexample: `floatPolicyExample` is a valid policy whose
weight percentages are the binary64 values `23.86159286152202` and
`73.66697349945584`; evaluating gpu% + cpu% + derived disk% with the
program's double-precision arithmetic yields `100.00000000000001`
(exactly `7036874417766401 / 2^46`), not 100. -/
theorem policy_float_sum_counterexample :
    floatPolicyExample.valid ∧
    fadd (fadd floatPolicyExample.w_gpu_percent floatPolicyExample.w_cpu_percent)
        floatPolicyExample.w_disk_percent ≠ 100 := by
  constructor
  · norm_num [floatPolicyExample, Policy.valid]
  · have hgpu : floatPolicyExample.w_gpu_percent = 3358220647488033 / 140737488355328 := rfl
    have hcpu : floatPolicyExample.w_cpu_percent = 5183852412525961 / 70368744177664 := rfl
    have hdisk : floatPolicyExample.w_disk_percent =
        fsub (fsub 100 (3358220647488033 / 140737488355328))
          (5183852412525961 / 70368744177664) := rfl
    have h1 : fsub 100 ((3358220647488033 : ℚ) / 140737488355328) =
        334860255876399 / 4398046511104 := by
      unfold fsub
      rw [show (100 : ℚ) - 3358220647488033 / 140737488355328 =
        10715528188044767 / 140737488355328 by norm_num]
      rw [fround_pos_eq _ 6 (by norm_num) (by norm_num) (by norm_num)]
      rw [show ((10715528188044767 : ℚ) / 140737488355328) / 2 ^ ((6 : ℤ) - 52) =
        10715528188044767 / 2 by norm_num]
      have hfl : ⌊(10715528188044767 / 2 : ℚ)⌋ = 5357764094022383 := by
        rw [Int.floor_eq_iff]
        constructor <;> norm_num
      unfold rne
      rw [hfl]
      norm_num
    have h2 : fsub ((334860255876399 : ℚ) / 4398046511104)
        (5183852412525961 / 70368744177664) = 173911681496423 / 70368744177664 := by
      unfold fsub
      rw [show (334860255876399 : ℚ) / 4398046511104 - 5183852412525961 / 70368744177664 =
        173911681496423 / 70368744177664 by norm_num]
      rw [fround_pos_eq _ 1 (by norm_num) (by norm_num) (by norm_num)]
      rw [show ((173911681496423 : ℚ) / 70368744177664) / 2 ^ ((1 : ℤ) - 52) =
        5565173807885536 by norm_num]
      have hfl : ⌊(5565173807885536 : ℚ)⌋ = 5565173807885536 := by
        rw [Int.floor_eq_iff]
        constructor <;> norm_num
      unfold rne
      rw [hfl]
      norm_num
    have h3 : fadd ((3358220647488033 : ℚ) / 140737488355328)
        (5183852412525961 / 70368744177664) = 3431481368134989 / 35184372088832 := by
      unfold fadd
      rw [show (3358220647488033 : ℚ) / 140737488355328 + 5183852412525961 / 70368744177664 =
        13725925472539955 / 140737488355328 by norm_num]
      rw [fround_pos_eq _ 6 (by norm_num) (by norm_num) (by norm_num)]
      rw [show ((13725925472539955 : ℚ) / 140737488355328) / 2 ^ ((6 : ℤ) - 52) =
        13725925472539955 / 2 by norm_num]
      have hfl : ⌊(13725925472539955 / 2 : ℚ)⌋ = 6862962736269977 := by
        rw [Int.floor_eq_iff]
        constructor <;> norm_num
      unfold rne
      rw [hfl]
      norm_num
    have h4 : fadd ((3431481368134989 : ℚ) / 35184372088832)
        (173911681496423 / 70368744177664) = 7036874417766401 / 70368744177664 := by
      unfold fadd
      rw [show (3431481368134989 : ℚ) / 35184372088832 + 173911681496423 / 70368744177664 =
        7036874417766401 / 70368744177664 by norm_num]
      rw [fround_pos_eq _ 6 (by norm_num) (by norm_num) (by norm_num)]
      rw [show ((7036874417766401 : ℚ) / 70368744177664) / 2 ^ ((6 : ℤ) - 52) =
        7036874417766401 by norm_num]
      have hfl : ⌊(7036874417766401 : ℚ)⌋ = 7036874417766401 := by
        rw [Int.floor_eq_iff]
        constructor <;> norm_num
      unfold rne
      rw [hfl]
      norm_num
    rw [hgpu, hcpu, hdisk, h1, h2, h3, h4]
    norm_num

/-- Claim C6 (amended): for every valid `Policy` whose percentage fields are
whole-number percentages, the gpu percentage plus the cpu percentage plus the
derived disk percentage (100 minus gpu minus cpu) equals exactly 100 for each
of the three resource kinds, even with every operation rounded to binary64:
all intermediate values are small integers and hence exactly representable.
For general double values the identity can fail by rounding, per the
counterexample. -/
theorem policy_int_percentages_sum_to_100 (p : Policy)
    (wg wc cg cc ag ac : ℕ) (hv : p.valid)
    (e1 : p.w_gpu_percent = wg) (e2 : p.w_cpu_percent = wc)
    (e3 : p.cache_gpu_percent = cg) (e4 : p.cache_cpu_percent = cc)
    (e5 : p.act_gpu_percent = ag) (e6 : p.act_cpu_percent = ac) :
    fadd (fadd p.w_gpu_percent p.w_cpu_percent) p.w_disk_percent = 100 ∧
    fadd (fadd p.cache_gpu_percent p.cache_cpu_percent) p.cache_disk_percent = 100 ∧
    fadd (fadd p.act_gpu_percent p.act_cpu_percent) p.act_disk_percent = 100 := by
  obtain ⟨-, -, -, -, -, -, -, -, -, -, -, -, hw, hc, ha⟩ := hv
  rw [e1, e2] at hw
  rw [e3, e4] at hc
  rw [e5, e6] at ha
  have hw' : wg + wc ≤ 100 := by exact_mod_cast hw
  have hc' : cg + cc ≤ 100 := by exact_mod_cast hc
  have ha' : ag + ac ≤ 100 := by exact_mod_cast ha
  refine ⟨?_, ?_, ?_⟩
  · rw [Policy.w_disk_percent, e1, e2]
    exact float_sum_100 wg wc hw'
  · rw [Policy.cache_disk_percent, e3, e4]
    exact float_sum_100 cg cc hc'
  · rw [Policy.act_disk_percent, e5, e6]
    exact float_sum_100 ag ac ha'

/-- Witness for the amended C6: the integer-percentage policy
`intPolicyExample` (weights 100/0, cache 50/50, activations 0/100) satisfies
all three rounded sum equations. -/
theorem policy_int_percentages_sum_to_100_witness :
    fadd (fadd intPolicyExample.w_gpu_percent intPolicyExample.w_cpu_percent)
        intPolicyExample.w_disk_percent = 100 ∧
    fadd (fadd intPolicyExample.cache_gpu_percent intPolicyExample.cache_cpu_percent)
        intPolicyExample.cache_disk_percent = 100 ∧
    fadd (fadd intPolicyExample.act_gpu_percent intPolicyExample.act_cpu_percent)
        intPolicyExample.act_disk_percent = 100 :=
  policy_int_percentages_sum_to_100 intPolicyExample 100 0 50 50 0 100
    (by norm_num [intPolicyExample, Policy.valid])
    (by norm_num [intPolicyExample]) (by norm_num [intPolicyExample])
    (by norm_num [intPolicyExample]) (by norm_num [intPolicyExample])
    (by norm_num [intPolicyExample]) (by norm_num [intPolicyExample])

/-- Claim C9: with batch size at least 1 and prefix plus sequence length at
least 1, `_estimate_max_chunk_length` returns at least 1, so chunked
execution always makes forward progress. -/
theorem estimate_max_chunk_length_pos (max_chunk_size_bytes : Nat)
    (shard_num_heads : List Nat) (dtype_bytes : Nat)
    (batch_size seq_length prefix_length : Nat)
    (hb : 1 ≤ batch_size) (hl : 1 ≤ prefix_length + seq_length) :
    1 ≤ estimate_max_chunk_length max_chunk_size_bytes shard_num_heads
      dtype_bytes batch_size seq_length prefix_length := by
  unfold estimate_max_chunk_length
  exact le_max_left 1 _

/-- Witness for C9: concrete instantiation with a budget far below the bytes
of a single token (heads 32, batch 1, fp16, 100 cached tokens plus 1 new). -/
theorem estimate_max_chunk_length_pos_witness :
    1 ≤ (1 : Nat) ∧ 1 ≤ 100 + 1 ∧
    1 ≤ estimate_max_chunk_length 8 [32] 2 1 1 100 :=
  ⟨by decide, by decide,
    estimate_max_chunk_length_pos 8 [32] 2 1 1 100 (by decide) (by decide)⟩

/-- Claim C1 (refuted; the spec describes the intended cache semantics, the
code never implements them): `inference_step`'s result is a pure function of
the block function and the hidden states alone — it is identical for every
choice of `hypo_ids` (dummy or not) and every `inference_info` (any
`prefix_length`), because the body never reads them and never calls
`_select_layer_past`, `_update_cache_inplace` or `_reorder_cache_inplace`:
no cache entry is read, appended or reordered. -/
theorem inference_step_ignores_cache_and_hypotheses (f : T3 → T3)
    (hidden_states : HiddenStates) (h1 h2 : List Nat)
    (i1 i2 : InferenceMetadata) :
    inference_step f hidden_states h1 i1 = inference_step f hidden_states h2 i2 :=
  rfl

/-- Claim C2 (refuted): chunking is not governed by `max_chunk_size_bytes`.
With a 10^12-byte ceiling, 32 attention heads, 2-byte elements, batch 1 and
no prefix, the source's own `_estimate_max_chunk_length` admits the whole
513-token sequence as a single chunk, yet `inference_step` still splits it
into 2 chunks because it hardcodes `chunk_size = 512`. -/
theorem chunking_ignores_byte_ceiling :
    513 ≤ estimate_max_chunk_length 1000000000000 [32] 2 1 513 0 ∧
    n_chunks 513 = 2 := by
  decide

/-- Claim C7: the merged step fails with `ArityMismatch` exactly when the
number of `InferenceMetadata` entries differs from the number of optional
prompt tensors; with equal counts it returns a successful result. -/
theorem merged_step_arity_mismatch_iff (blocks : Nat → T3 → T3)
    (hidden_states : T3) (hypo_ids : List Nat)
    (inference_infos : List InferenceMetadata)
    (optional_prompts : List (Option T3)) :
    merged_inference_step blocks hidden_states hypo_ids inference_infos
        optional_prompts = .error .arityMismatch ↔
      inference_infos.length ≠ optional_prompts.length := by
  unfold merged_inference_step
  split
  · next h => simp [h]
  · next h => simp [h]

lemma merged_loop_eq_foldl (blocks : Nat → T3 → T3) (hypo_ids : List Nat) :
    ∀ (l : List (InferenceMetadata × Option T3)) (h : T3),
      merged_loop blocks hypo_ids l h =
        l.foldl
          (fun acc bp =>
            inference_step (blocks bp.1.uid)
              (.dim3 (match bp.2 with | some p => addPrompt acc p | none => acc))
              hypo_ids bp.1)
          h
  | [], h => rfl
  | (info, op) :: rest, h => by
    simp only [merged_loop, List.foldl]
    cases op with
    | none => exact merged_loop_eq_foldl blocks hypo_ids rest _
    | some p => exact merged_loop_eq_foldl blocks hypo_ids rest _

/-- Claim C3: with matching arity, the merged step equals the left-to-right
fold of the listed blocks' `inference_step` over `hidden_states` in metadata
order — each block's present prompt is added into the leading positions
before its step, each output feeds the next block — and the merged step
returns exactly the final tensor. -/
theorem merged_step_is_sequential_fold (blocks : Nat → T3 → T3)
    (hidden_states : T3) (hypo_ids : List Nat)
    (inference_infos : List InferenceMetadata)
    (optional_prompts : List (Option T3))
    (hlen : inference_infos.length = optional_prompts.length) :
    merged_inference_step blocks hidden_states hypo_ids inference_infos
        optional_prompts =
      .ok ((inference_infos.zip optional_prompts).foldl
        (fun acc bp =>
          inference_step (blocks bp.1.uid)
            (.dim3 (match bp.2 with | some p => addPrompt acc p | none => acc))
            hypo_ids bp.1)
        hidden_states) := by
  unfold merged_inference_step
  rw [if_pos hlen, merged_loop_eq_foldl]

/-- Witness for C3: one block (uid 0, identity module) with no prompt on a
one-token input. -/
theorem merged_step_is_sequential_fold_witness :
    merged_inference_step (fun _ x => x) [[[1]]] [] [⟨0, 0⟩] [none] =
      .ok ((([(⟨0, 0⟩ : InferenceMetadata)]).zip [(none : Option T3)]).foldl
        (fun acc bp =>
          inference_step ((fun _ x => x) bp.1.uid)
            (.dim3 (match bp.2 with | some p => addPrompt acc p | none => acc))
            [] bp.1)
        [[[1]]]) :=
  merged_step_is_sequential_fold (fun _ x => x) [[[1]]] [] [⟨0, 0⟩] [none] rfl

lemma cat1_length_one : ∀ (cs : List T3), cs ≠ [] → (∀ c ∈ cs, c.length = 1) →
    (cat1 cs).length = 1
  | [], h, _ => absurd rfl h
  | [c], _, hall => hall c (by simp)
  | c :: c2 :: cs, _, hall => by
    simp only [cat1, List.length_zipWith]
    rw [cat1_length_one (c2 :: cs) (by simp)
      (fun x hx => hall x (List.mem_cons_of_mem _ hx))]
    rw [hall c (by simp)]
    decide

/-- Claim C10: a 2-D `hidden_states` of shape (seq, hidden) is promoted to
3-D by inserting a leading batch dimension of size 1: `inference_step`
treats it exactly like the 3-D input `[m]`, and (whenever the block function
preserves the batch dimension and the sequence is nonempty) the returned
output carries a leading batch dimension of size 1. -/
theorem inference_step_promotes_dim2 (f : T3 → T3) (m : Row)
    (hypo_ids : List Nat) (inference_info : InferenceMetadata)
    (hf : ∀ x, (f x).length = x.length) (hm : 1 ≤ m.length) :
    inference_step f (.dim2 m) hypo_ids inference_info =
      inference_step f (.dim3 [m]) hypo_ids inference_info ∧
    (inference_step f (.dim2 m) hypo_ids inference_info).length = 1 := by
  refine ⟨rfl, ?_⟩
  show (inference_step_chunks f [m]).length = 1
  unfold inference_step_chunks
  apply cat1_length_one
  · simp only [ne_eq, List.map_eq_nil_iff, List.range_eq_nil]
    have : 0 < n_chunks (seqLen [m]) := by
      apply Nat.div_pos
      · show chunk_size ≤ seqLen [m] + chunk_size - 1
        have : seqLen [m] = m.length := rfl
        unfold chunk_size
        omega
      · decide
    omega
  · intro c hc
    simp only [List.mem_map] at hc
    obtain ⟨i, _, rfl⟩ := hc
    rw [hf]
    simp [slice1]

/-- Witness for C10: the identity block on a single-token 2-D input. -/
theorem inference_step_promotes_dim2_witness :
    inference_step id (.dim2 [[5]]) [] ⟨0, 0⟩ =
      inference_step id (.dim3 [[[5]]]) [] ⟨0, 0⟩ ∧
    (inference_step id (.dim2 [[5]]) [] ⟨0, 0⟩).length = 1 :=
  inference_step_promotes_dim2 id [[5]] [] ⟨0, 0⟩ (fun _ => rfl) (by decide)

lemma update_cache_getD (prefix_length new_length : Nat) :
    ∀ (cs ks : List (Nat → Int)) (j : Nat), cs.length = ks.length → ∀ i,
      ((update_cache_inplace cs ks prefix_length new_length).getD j
          (fun _ => 0)) i =
        slice_assign (cs.getD j (fun _ => 0)) (ks.getD j (fun _ => 0))
          prefix_length new_length i
  | [], [], j, _, i => by
    simp [update_cache_inplace, slice_assign]
  | [], _ :: _, _, h, _ => by simp at h
  | _ :: _, [], _, h, _ => by simp at h
  | c :: cs, k :: ks, 0, h, i => rfl
  | c :: cs, k :: ks, j + 1, h, i => by
    simp only [update_cache_inplace, List.zipWith_cons_cons, List.getD_cons_succ]
    exact update_cache_getD prefix_length new_length cs ks j (by simpa using h) i

/-- Claim C5: with equally many cache tensors and new key/value tensors and
`prefix_length ≤ new_length`, `_update_cache_inplace` overwrites exactly the
index range `[prefix_length, new_length)` of each cache tensor's length
axis: entries below `prefix_length` and entries at or past `new_length` are
identical before and after the update, and entries inside the range take the
new tensors' values. -/
theorem update_cache_inplace_frame (cs ks : List (Nat → Int))
    (prefix_length new_length : Nat) (hlen : cs.length = ks.length)
    (hpn : prefix_length ≤ new_length) :
    (∀ j i, i < prefix_length ∨ new_length ≤ i →
      ((update_cache_inplace cs ks prefix_length new_length).getD j
          (fun _ => 0)) i =
        (cs.getD j (fun _ => 0)) i) ∧
    (∀ j i, prefix_length ≤ i → i < new_length →
      ((update_cache_inplace cs ks prefix_length new_length).getD j
          (fun _ => 0)) i =
        (ks.getD j (fun _ => 0)) i) := by
  constructor
  · intro j i hi
    rw [update_cache_getD prefix_length new_length cs ks j hlen i]
    unfold slice_assign
    rw [if_neg]
    omega
  · intro j i h1 h2
    rw [update_cache_getD prefix_length new_length cs ks j hlen i]
    unfold slice_assign
    rw [if_pos ⟨h1, h2⟩]

/-- Witness for C5: one cache tensor holding `10 * i` at index `i`, one new
tensor holding the constant 7, `prefix_length = 2`, `new_length = 3`: index 0
keeps its old value, index 2 takes the new value. -/
theorem update_cache_inplace_frame_witness :
    ((update_cache_inplace [fun i => (10 : Int) * i] [fun _ => (7 : Int)] 2 3).getD 0
        (fun _ => 0)) 0 =
      ((([fun i => (10 : Int) * i] : List (Nat → Int)).getD 0 (fun _ => 0)) 0) ∧
    ((update_cache_inplace [fun i => (10 : Int) * i] [fun _ => (7 : Int)] 2 3).getD 0
        (fun _ => 0)) 2 =
      ((([fun _ => (7 : Int)] : List (Nat → Int)).getD 0 (fun _ => 0)) 2) :=
  ⟨(update_cache_inplace_frame [fun i => (10 : Int) * i] [fun _ => (7 : Int)] 2 3
      rfl (by decide)).1 0 0 (Or.inl (by decide)),
   (update_cache_inplace_frame [fun i => (10 : Int) * i] [fun _ => (7 : Int)] 2 3
      rfl (by decide)).2 0 2 (by decide) (by decide)⟩

lemma getD_map_getD (hypo_ids : List Nat) :
    ∀ (t : List Vec) (i : Nat), i < hypo_ids.length →
      (hypo_ids.map (fun ix => t.getD ix [])).getD i [] =
        t.getD (hypo_ids.getD i 0) []
  | t, i, hi => by
    rw [List.getD_eq_getElem?_getD, List.getElem?_map,
      List.getElem?_eq_getElem hi, List.getD_eq_getElem?_getD hypo_ids,
      List.getElem?_eq_getElem hi]
    rfl

lemma gather_rows_getD (hypo_ids : List Nat) :
    ∀ (cache_tensors : List (List Vec)) (j i : Nat), i < hypo_ids.length →
      ((cache_tensors.map
          (fun t => hypo_ids.map (fun ix => t.getD ix []))).getD j []).getD i [] =
        ((cache_tensors.getD j []).getD (hypo_ids.getD i 0) [])
  | [], j, i, hi => by simp
  | t :: cts, 0, i, hi => by
    simpa using getD_map_getD hypo_ids t i hi
  | t :: cts, j + 1, i, hi => by
    simpa using gather_rows_getD hypo_ids cts j i hi

/-- Claim C8: when `hypo_ids` is the dummy sentinel, `_reorder_cache_inplace`
leaves every cache tensor untouched; when it is not, each cache tensor's rows
are permuted so that row `i` of the result is row `hypo_ids[i]` of the
original. -/
theorem reorder_cache_inplace_spec (cache_tensors : List (List Vec))
    (hypo_ids : List Nat) :
    (is_dummy hypo_ids = true →
      reorder_cache_inplace cache_tensors hypo_ids = cache_tensors) ∧
    (is_dummy hypo_ids = false → ∀ j i, i < hypo_ids.length →
      ((reorder_cache_inplace cache_tensors hypo_ids).getD j []).getD i [] =
        ((cache_tensors.getD j []).getD (hypo_ids.getD i 0) [])) := by
  constructor
  · intro h
    simp [reorder_cache_inplace, h]
  · intro h j i hi
    simp only [reorder_cache_inplace, h, Bool.false_eq_true, if_false]
    exact gather_rows_getD hypo_ids cache_tensors j i hi

/-- Witness for C8: the empty sentinel leaves a two-row cache tensor alone;
the indices `[1, 0]` swap its rows (row 0 of the result is old row 1). -/
theorem reorder_cache_inplace_spec_witness :
    reorder_cache_inplace [[[1], [2]]] [] = [[[1], [2]]] ∧
    ((reorder_cache_inplace [[[1], [2]]] [1, 0]).getD 0 []).getD 0 [] =
      ((([[[1], [2]]] : List (List Vec)).getD 0 []).getD
        (([1, 0] : List Nat).getD 0 0) []) :=
  ⟨(reorder_cache_inplace_spec [[[1], [2]]] []).1 rfl,
   (reorder_cache_inplace_spec [[[1], [2]]] [1, 0]).2 rfl 0 0 (by decide)⟩

/-- Elementwise vector addition (used by the modelled transformer block). -/
def vecAdd (a b : Vec) : Vec := List.zipWith (fun x y => x + y) a b

/-- Running sums of a sequence of vectors starting from `acc`. -/
def prefixSums : Vec → Row → Row
  | _, [] => []
  | acc, v :: vs => vecAdd acc v :: prefixSums (vecAdd acc v) vs

/-- Modelled from the spec: the transformer block behind
`self.module.forward` (`petals/models/*`, not under `src/`) is, per §4.3 and
the glossary, an attention block whose output at each position depends on
that position and all earlier (cached) positions. Modelled minimally as the
per-batch-row running sum over the sequence axis, the simplest
prefix-dependent map. -/
def attention_block_model (x : T3) : T3 :=
  x.map (fun r => prefixSums (List.replicate ((r.headD []).length) 0) r)

set_option maxRecDepth 20000 in
/-- Claim C4 (refuted): chunked execution is not functionally equivalent to
unchunked execution. On a 513-token sequence the chunk loop feeds the second
chunk to the block with no access to the first 512 positions (the
`use_cache=True` present key/values are discarded between chunks), so for a
prefix-dependent block the concatenated chunked output differs from the
unchunked output at position 512. -/
theorem chunked_execution_not_equivalent :
    inference_step attention_block_model
        (.dim3 [List.replicate 513 [1]]) [] ⟨0, 0⟩ ≠
      attention_block_model [List.replicate 513 [1]] := by
  decide
